import Mathlib

/-!
Shallow embedding of the PK Engine of `src/App.jsx` (TetracyclinePKCalculator).

JavaScript numbers are modelled by `JSNum`: either a real value or NaN.
NaN arises in this program only from `parseFloat` applied to a non-numeric
string (JS `parseFloat` does not throw; it returns NaN).  JS `±Infinity` is
not modelled: every division in the source guards its denominator by a
truthiness check, and an `Infinity` literal in the CSV field is outside the
behaviour any claim depends on; both are collapsed to `nan` here.

Nullable numbers (`number | null` in the source) are `Option JSNum`, with
`none` for `null`.
-/

inductive JSNum where
  | num (x : ℝ)
  | nan
deriving Inhabited

namespace JSNum

/-- JS truthiness of a number: `0` and `NaN` are falsy. -/
noncomputable def truthy : JSNum → Bool
  | num x => decide (x ≠ 0)
  | nan => false

end JSNum

open JSNum

/-- JS `+` on numbers (NaN absorbing). -/
noncomputable def jsAdd : JSNum → JSNum → JSNum
  | num x, num y => num (x + y)
  | _, _ => nan

/-- JS `-` on numbers (NaN absorbing). -/
noncomputable def jsSub : JSNum → JSNum → JSNum
  | num x, num y => num (x - y)
  | _, _ => nan

/-- JS `*` on numbers (NaN absorbing). -/
noncomputable def jsMul : JSNum → JSNum → JSNum
  | num x, num y => num (x * y)
  | _, _ => nan

/-- JS unary minus. -/
noncomputable def jsNeg : JSNum → JSNum
  | num x => num (-x)
  | nan => nan

/-- JS `/` on numbers.  Division by zero yields `±Infinity` (or NaN for 0/0)
in JS; every division in the source is guarded, so that case is collapsed to
`nan`. -/
noncomputable def jsDiv : JSNum → JSNum → JSNum
  | num x, num y => if y = 0 then nan else num (x / y)
  | _, _ => nan

/-- JS `<` comparison: any comparison involving NaN is false. -/
noncomputable def jsLtb : JSNum → JSNum → Bool
  | num x, num y => decide (x < y)
  | _, _ => false

/-- JS `>` comparison: `a > b` is `b < a`; false when NaN is involved. -/
noncomputable def jsGtb (a b : JSNum) : Bool := jsLtb b a

/-- JS `Math.log`.  In the source it is applied only to concentrations that
passed a `> 0` filter, where it agrees with `Real.log`; the `x ≤ 0` cases
(`-Infinity` / NaN in JS) are unreachable. -/
noncomputable def jsLog : JSNum → JSNum
  | num x => num (Real.log x)
  | nan => nan

/-- Truthiness of a nullable number (`null` is falsy). -/
noncomputable def jsTruthyN : Option JSNum → Bool
  | none => false
  | some v => v.truthy

/-- JS `||` on nullable numbers. -/
noncomputable def jsOrN (a b : Option JSNum) : Option JSNum :=
  if jsTruthyN a then a else b

/-- A concentration-time sample, `{t, c}` in the source. -/
structure Sample where
  t : JSNum
  c : JSNum

/-! ### The Point Parser (`parsePoints`, src/App.jsx lines 26-38) -/

/-- JS `String.prototype.split` with a one-character separator, on lists of
characters.  Splitting the empty string yields one empty segment, as in JS. -/
def splitOnChar (sep : Char) : List Char → List (List Char)
  | [] => [[]]
  | ch :: rest =>
    match splitOnChar sep rest with
    | [] => [[ch]]
    | g :: gs => if ch = sep then [] :: g :: gs else (ch :: g) :: gs

/-- JS `String.prototype.trim`: drop whitespace from both ends. -/
def trimChars (l : List Char) : List Char :=
  ((l.dropWhile Char.isWhitespace).reverse.dropWhile Char.isWhitespace).reverse

/-- Numeric value of a list of decimal digit characters. -/
def digitsVal (ds : List Char) : ℕ :=
  ds.foldl (fun n d => 10 * n + (d.toNat - 48)) 0

/-- Optional leading sign of a numeric literal. -/
def parseSign : List Char → ℤ × List Char
  | '-' :: rest => (-1, rest)
  | '+' :: rest => (1, rest)
  | l => (1, l)

/-- Optional exponent part (`e`/`E`, optional sign, digits) of a numeric
literal; `0` when absent or incomplete (JS backtracks an incomplete
exponent). -/
def parseExp (l : List Char) : ℤ :=
  match l with
  | [] => 0
  | e :: rest =>
    if e = 'e' ∨ e = 'E' then
      let sr : ℤ × List Char :=
        match rest with
        | '-' :: r => (-1, r)
        | '+' :: r => (1, r)
        | r => (1, r)
      let ds := sr.2.takeWhile Char.isDigit
      if ds.isEmpty then 0 else sr.1 * digitsVal ds
    else 0

/-- JS `parseFloat`, finite case: longest prefix of the form
`[+|-] digits [. digits] [e [+|-] digits]` (with at least one digit in the
mantissa); `none` when there is no such prefix (JS returns NaN).  The result
is returned in exact integer parts — signed mantissa read over all mantissa
digits, number of fractional digits, decimal exponent — so the denoted real
value is `m / 10^d * 10^e`. -/
def parseFloatParts (l0 : List Char) : Option (ℤ × ℕ × ℤ) :=
  let l := l0.dropWhile Char.isWhitespace
  let s := parseSign l
  let ip := s.2.takeWhile Char.isDigit
  let l2 := s.2.dropWhile Char.isDigit
  let fr : List Char × List Char :=
    match l2 with
    | '.' :: rest => (rest.takeWhile Char.isDigit, rest.dropWhile Char.isDigit)
    | _ => ([], l2)
  if ip.isEmpty ∧ fr.1.isEmpty then none
  else
    some (s.1 * (digitsVal ip * 10 ^ fr.1.length + digitsVal fr.1),
      fr.1.length, parseExp fr.2)

/-- The real number denoted by parsed float parts. -/
noncomputable def partsVal (m : ℤ) (d : ℕ) (e : ℤ) : ℝ :=
  (m : ℝ) / 10 ^ d * (if 0 ≤ e then (10 : ℝ) ^ e.toNat else ((10 : ℝ) ^ (-e).toNat)⁻¹)

/-- JS `parseFloat` as a `JSNum` (NaN when no numeric prefix exists). -/
noncomputable def jsParseFloat (l : List Char) : JSNum :=
  match parseFloatParts l with
  | some mde => num (partsVal mde.1 mde.2.1 mde.2.2)
  | none => nan

/-- One segment of the CSV field:
`const [t, c] = p.split(":").map((x) => x.trim())` followed by
`{ t: parseFloat(t), c: parseFloat(c) }`.  When the segment has no colon,
`c` is `undefined` and `parseFloat(undefined)` is NaN. -/
noncomputable def parseSegment (seg : List Char) : Sample :=
  match (splitOnChar ':' seg).map trimChars with
  | [] => ⟨jsParseFloat [], nan⟩
  | [tStr] => ⟨jsParseFloat tStr, nan⟩
  | tStr :: cStr :: _ => ⟨jsParseFloat tStr, jsParseFloat cStr⟩

/-- Comparison used by `arr.sort((a, b) => a.t - b.t)`: ascending by time.
JS's sort is stable, so it is modelled as the stable insertion sort with this
non-strict order; its behaviour on NaN times is unspecified in JS and
irrelevant to every claim. -/
def sampleLe (a b : Sample) : Prop :=
  match a.t, b.t with
  | num x, num y => x ≤ y
  | _, _ => False

noncomputable instance : DecidableRel sampleLe := fun _ _ => Classical.propDecidable _

/-- The function `parsePoints` (src/App.jsx lines 26-38).  The `try`/`catch` of the source
returns `[]` on a thrown failure, but no operation in the body throws on a
string input (JS `parseFloat` returns NaN instead of throwing), so the body
is modelled directly. -/
noncomputable def parsePoints (csv : String) : List Sample :=
  List.insertionSort sampleLe ((splitOnChar ',' csv.toList).map parseSegment)

/-! ### The AUC Integrator (`trapezoidalAUC`, src/App.jsx lines 40-49) -/

/-- The function `trapezoidalAUC`: for each `i` in `[1, points.length)`,
`auc += ((c[i] + c[i-1]) / 2) * (t[i] - t[i-1])`, starting from `0`.  The
index loop over adjacent pairs is rendered as a fold over `points` zipped
with its tail. -/
noncomputable def trapezoidalAUC (points : List Sample) : JSNum :=
  (points.zip points.tail).foldl
    (fun auc pq => jsAdd auc (jsMul (jsDiv (jsAdd pq.2.c pq.1.c) (num 2)) (jsSub pq.2.t pq.1.t)))
    (num 0)

/-! ### The terminal-slope estimator (`estimateTerminalK`, src/App.jsx lines 51-72) -/

noncomputable instance : DecidableEq JSNum := fun _ _ => Classical.propDecidable _

/-- The function `estimateTerminalK`: filter to `c > 0`; `null` when fewer than 2 remain;
`slice(-4)` (the last up to 4, rendered as `drop (length - 4)`); ordinary
least-squares slope of `ln c` against `t` accumulated in a loop; `null` when
the denominator is `0`; `k = -slope`, returned only when `k > 0`. -/
noncomputable def estimateTerminalK (points : List Sample) : Option JSNum :=
  let nonzero := points.filter (fun p => jsGtb p.c (num 0))
  if nonzero.length < 2 then none
  else
    let last := nonzero.drop (nonzero.length - 4)
    let xs := last.map (fun p => p.t)
    let ys := last.map (fun p => jsLog p.c)
    let n := xs.length
    let xbar := jsDiv (xs.foldl jsAdd (num 0)) (num n)
    let ybar := jsDiv (ys.foldl jsAdd (num 0)) (num n)
    let nd :=
      (xs.zip ys).foldl
        (fun acc xy =>
          (jsAdd acc.1 (jsMul (jsSub xy.1 xbar) (jsSub xy.2 ybar)),
           jsAdd acc.2 (jsMul (jsSub xy.1 xbar) (jsSub xy.1 xbar))))
        (num 0, num 0)
    if nd.2 = num 0 then none
    else
      let slope := jsDiv nd.1 nd.2
      let k := jsNeg slope
      if jsGtb k (num 0) then some k else none

/-! ### The Dose Calculator stage (`handleCalculate`, src/App.jsx lines 74-122) -/

/-- Peak scan (lines 88-96): `Cmax`/`Tmax` start at `(0, 0)` and are updated
whenever `p.c > Cmax` (strict). -/
noncomputable def computePeak (points : List Sample) : JSNum × JSNum :=
  points.foldl (fun acc p => if jsGtb p.c acc.1 then (p.c, p.t) else acc) (num 0, num 0)

/-- Last concentration (line 85):
`points.length ? points[points.length - 1].c : 0`. -/
noncomputable def lastConc (points : List Sample) : JSNum :=
  match points.getLast? with
  | some p => p.c
  | none => num 0

/-- The route selector of the form (oral | IV bolus); never read by the
computation. -/
inductive Route where
  | oral
  | iv

/-- The input record supplied by the form: all scalar parameters are real
numbers, plus the raw CSV text.  `dose`, `route` and `ka` are inputs the
computation never reads. -/
structure InputRecord where
  dose : ℝ
  route : Route
  F : ℝ
  Vd : ℝ
  Cl : ℝ
  t12 : ℝ
  ka : ℝ
  tau : ℝ
  cssTarget : ℝ
  pointsCsv : String

/-- The result record built by `handleCalculate` (lines 106-121). -/
structure CalcResults where
  points : List Sample
  auc : JSNum
  k_from_t12 : Option JSNum
  k_from_cl_vd : Option JSNum
  k_est : Option JSNum
  k : Option JSNum
  t_half : Option JSNum
  aucInf : Option JSNum
  Cmax : JSNum
  Tmax : JSNum
  LD : JSNum
  MD : JSNum
  MD_rate : JSNum
  lastC : JSNum

/-- The handler `handleCalculate` (lines 74-122), as the pure computation from the input
record to the result record.  Scalar parameters are real, so JS truthiness of
a parameter `x` is `x ≠ 0`. -/
noncomputable def handleCalculate (inp : InputRecord) : CalcResults :=
  let points := parsePoints inp.pointsCsv
  let auc := trapezoidalAUC points
  let k_from_t12 : Option JSNum :=
    if inp.t12 ≠ 0 then some (num (0.693 / inp.t12)) else none
  let k_from_cl_vd : Option JSNum :=
    if inp.Cl ≠ 0 ∧ inp.Vd ≠ 0 then some (num (inp.Cl / inp.Vd)) else none
  let k_est := estimateTerminalK points
  let k := jsOrN (jsOrN (jsOrN k_est k_from_cl_vd) k_from_t12) none
  let t_half : Option JSNum :=
    match k with
    | some v => if v.truthy then some (jsDiv (num 0.693) v) else none
    | none => none
  let lastC := lastConc points
  let aucInf : Option JSNum :=
    match k with
    | some v => if v.truthy then some (jsAdd auc (jsDiv lastC v)) else none
    | none => none
  let peak := computePeak points
  let LD := num ((inp.cssTarget * inp.Vd) / (if inp.F ≠ 0 then inp.F else 1))
  let MD_rate :=
    jsMul (num inp.cssTarget)
      (if inp.Cl ≠ 0 then num inp.Cl
       else
         match k with
         | some v => if v.truthy ∧ inp.Vd ≠ 0 then jsMul v (num inp.Vd) else num 0
         | none => num 0)
  let MD := jsDiv (jsMul MD_rate (num (if inp.tau ≠ 0 then inp.tau else 1)))
      (num (if inp.F ≠ 0 then inp.F else 1))
  { points := points
    auc := auc
    k_from_t12 := k_from_t12
    k_from_cl_vd := k_from_cl_vd
    k_est := k_est
    k := k
    t_half := t_half
    aucInf := aucInf
    Cmax := peak.1
    Tmax := peak.2
    LD := LD
    MD := MD
    MD_rate := MD_rate
    lastC := lastC }

/-! ### Spec-side definitions

The spec's data model (§3) takes a Sample to be a pair of real numbers.
`toSamples` embeds such sequences into the JS layer.  `specTrapezoidSum` and
`specTerminalK` are written from the spec's words (§4.2, §4.3), to be
compared with the source-translated functions above. -/

/-- A sequence of real-valued samples, as in the spec's data model. -/
noncomputable def toSamples (l : List (ℝ × ℝ)) : List Sample :=
  l.map (fun p => ⟨num p.1, num p.2⟩)

/-- Spec §4.2: «for each adjacent pair, area = (c[i] + c[i-1])/2 × (t[i] −
t[i-1]); sum over all pairs.  For zero or one sample, result is 0.» -/
noncomputable def specTrapezoidSum (l : List (ℝ × ℝ)) : ℝ :=
  ((l.zip l.tail).map (fun pq => (pq.2.2 + pq.1.2) / 2 * (pq.2.1 - pq.1.1))).sum

/-- Spec §4.3, «From terminal slope»: filter to concentration > 0; undefined
below 2 samples; the last up to 4 of them; OLS slope of ln(concentration)
against time; k is the negative of the slope; undefined when the
time-variance denominator is zero or k is not strictly positive. -/
noncomputable def specTerminalK (l : List (ℝ × ℝ)) : Option ℝ :=
  let pos := l.filter (fun p => decide (0 < p.2))
  if pos.length < 2 then none
  else
    let window := (pos.reverse.take 4).reverse
    let xs := window.map Prod.fst
    let ys := window.map (fun p => Real.log p.2)
    let xbar := xs.sum / xs.length
    let ybar := ys.sum / ys.length
    let sxx := (xs.map (fun x => (x - xbar) ^ 2)).sum
    let sxy := ((xs.zip ys).map (fun q => (q.1 - xbar) * (q.2 - ybar))).sum
    if sxx = 0 then none
    else if 0 < -(sxy / sxx) then some (-(sxy / sxx)) else none

/-! ### Basic lemmas about the JS number model -/

@[simp] lemma jsAdd_num (x y : ℝ) : jsAdd (num x) (num y) = num (x + y) := rfl

@[simp] lemma jsSub_num (x y : ℝ) : jsSub (num x) (num y) = num (x - y) := rfl

@[simp] lemma jsMul_num (x y : ℝ) : jsMul (num x) (num y) = num (x * y) := rfl

@[simp] lemma jsNeg_num (x : ℝ) : jsNeg (num x) = num (-x) := rfl

@[simp] lemma jsDiv_num (x y : ℝ) :
    jsDiv (num x) (num y) = if y = 0 then nan else num (x / y) := rfl

lemma jsDiv_num_ne (x : ℝ) {y : ℝ} (h : y ≠ 0) :
    jsDiv (num x) (num y) = num (x / y) := by simp [h]

@[simp] lemma jsLtb_num (x y : ℝ) : jsLtb (num x) (num y) = decide (x < y) := rfl

@[simp] lemma jsLtb_nan_left (b : JSNum) : jsLtb nan b = false := by cases b <;> rfl

@[simp] lemma jsLtb_nan_right (a : JSNum) : jsLtb a nan = false := by cases a <;> rfl

@[simp] lemma jsGtb_num (x y : ℝ) : jsGtb (num x) (num y) = decide (y < x) := rfl

@[simp] lemma truthy_num (x : ℝ) : (num x).truthy = decide (x ≠ 0) := rfl

@[simp] lemma truthy_nan : (nan : JSNum).truthy = false := rfl

@[simp] lemma jsTruthyN_none : jsTruthyN none = false := rfl

@[simp] lemma jsTruthyN_some (v : JSNum) : jsTruthyN (some v) = v.truthy := rfl

@[simp] lemma jsOrN_none_left (b : Option JSNum) : jsOrN none b = b := rfl

@[simp] lemma jsLog_num (x : ℝ) : jsLog (num x) = num (Real.log x) := rfl

lemma jsOrN_truthy {a : Option JSNum} (h : jsTruthyN a = true) (b : Option JSNum) :
    jsOrN a b = a := by simp [jsOrN, h]

lemma jsOrN_falsy {a : Option JSNum} (h : jsTruthyN a = false) (b : Option JSNum) :
    jsOrN a b = b := by simp [jsOrN, h]

/-- The `|| null`-terminated selection chain only ever produces truthy
values. -/
lemma jsOrN_none_right_some {a : Option JSNum} {v : JSNum}
    (h : jsOrN a none = some v) : a = some v ∧ v.truthy = true := by
  by_cases ht : jsTruthyN a = true
  · rw [jsOrN_truthy ht] at h
    refine ⟨h, ?_⟩
    have := ht
    rw [h] at this
    simpa using this
  · rw [jsOrN_falsy (by simpa using ht)] at h
    exact absurd h (by simp)

/-! ### Fold evaluation lemmas -/

lemma foldl_jsAdd_map (l : List ℝ) (a : ℝ) :
    (l.map num).foldl jsAdd (num a) = num (a + l.sum) := by
  induction l generalizing a with
  | nil => simp
  | cons x xs ih => simp [ih, add_assoc]

lemma foldl_regression_map (ps : List (ℝ × ℝ)) (a b xb yb : ℝ) :
    (ps.map (Prod.map num num)).foldl
      (fun acc xy =>
        (jsAdd acc.1 (jsMul (jsSub xy.1 (num xb)) (jsSub xy.2 (num yb))),
         jsAdd acc.2 (jsMul (jsSub xy.1 (num xb)) (jsSub xy.1 (num xb)))))
      (num a, num b)
    = (num (a + (ps.map (fun q => (q.1 - xb) * (q.2 - yb))).sum),
       num (b + (ps.map (fun q => (q.1 - xb) * (q.1 - xb))).sum)) := by
  induction ps generalizing a b with
  | nil => simp
  | cons p ps ih => simp [Prod.map, ih, add_assoc]

/-! ### Lemmas relating `toSamples` to the JS layer -/

lemma toSamples_length (l : List (ℝ × ℝ)) : (toSamples l).length = l.length := by
  simp [toSamples]

lemma toSamples_filter (l : List (ℝ × ℝ)) :
    (toSamples l).filter (fun p => jsGtb p.c (num 0))
      = toSamples (l.filter (fun p => decide (0 < p.2))) := by
  simp only [toSamples, List.filter_map]
  rfl

lemma toSamples_drop (l : List (ℝ × ℝ)) (k : ℕ) :
    (toSamples l).drop k = toSamples (l.drop k) := by
  simp [toSamples, List.map_drop]

lemma toSamples_map_t (l : List (ℝ × ℝ)) :
    (toSamples l).map (fun p => p.t) = (l.map Prod.fst).map num := by
  simp [toSamples, List.map_map]

lemma toSamples_map_logc (l : List (ℝ × ℝ)) :
    (toSamples l).map (fun p => jsLog p.c) = (l.map (fun p => Real.log p.2)).map num := by
  simp [toSamples, List.map_map]

lemma lastN_eq_drop {α : Type} (l : List α) (n : ℕ) :
    (l.reverse.take n).reverse = l.drop (l.length - n) := by
  have h := @List.reverse_take α l.reverse n
  simpa using h

theorem estimateTerminalK_refines (l : List (ℝ × ℝ)) :
    estimateTerminalK (toSamples l) = (specTerminalK l).map num := by
  classical
  simp only [estimateTerminalK, specTerminalK]
  rw [toSamples_filter, toSamples_length]
  set pos := l.filter (fun p => decide (0 < p.2)) with hpos
  by_cases hlen : pos.length < 2
  · simp [hlen]
  · rw [if_neg hlen, if_neg hlen, lastN_eq_drop, toSamples_drop]
    set w := pos.drop (pos.length - 4) with hw
    have hwlen : w.length ≠ 0 := by
      rw [hw, List.length_drop]
      omega
    rw [toSamples_map_t, toSamples_map_logc]
    rw [List.length_map, List.length_map, List.length_map]
    rw [foldl_jsAdd_map, foldl_jsAdd_map]
    have hcast : ((w.length : ℝ)) ≠ 0 := Nat.cast_ne_zero.mpr hwlen
    rw [jsDiv_num_ne _ hcast, jsDiv_num_ne _ hcast]
    rw [List.zip_map, foldl_regression_map]
    have hfst : ((w.map Prod.fst).zip (w.map fun p => Real.log p.2)).map Prod.fst
        = w.map Prod.fst := by
      apply List.map_fst_zip
      simp
    have hsxx : (((w.map Prod.fst).zip (w.map fun p => Real.log p.2)).map
          (fun q => (q.1 - (0 + (w.map Prod.fst).sum) / w.length)
            * (q.1 - (0 + (w.map Prod.fst).sum) / w.length))).sum
        = ((w.map Prod.fst).map
          (fun x => (x - (w.map Prod.fst).sum / (w.map Prod.fst).length) ^ 2)).sum := by
      rw [show (((w.map Prod.fst).zip (w.map fun p => Real.log p.2)).map
            (fun q => (q.1 - (0 + (w.map Prod.fst).sum) / w.length)
              * (q.1 - (0 + (w.map Prod.fst).sum) / w.length)))
          = (((w.map Prod.fst).zip (w.map fun p => Real.log p.2)).map Prod.fst).map
            (fun x => (x - (0 + (w.map Prod.fst).sum) / w.length)
              * (x - (0 + (w.map Prod.fst).sum) / w.length)) from by
        rw [List.map_map]; rfl]
      rw [hfst]
      simp [pow_two]
    rw [hsxx]
    have hsxy : (((w.map Prod.fst).zip (w.map fun p => Real.log p.2)).map
          (fun q => (q.1 - (0 + (w.map Prod.fst).sum) / w.length)
            * (q.2 - (0 + (w.map fun p => Real.log p.2).sum) / w.length))).sum
        = (((w.map Prod.fst).zip (w.map fun p => Real.log p.2)).map
          (fun q => (q.1 - (w.map Prod.fst).sum / (w.map Prod.fst).length)
            * (q.2 - (w.map fun p => Real.log p.2).sum
                / (w.map fun p => Real.log p.2).length))).sum := by
      simp
    rw [hsxy]
    simp only [jsDiv_num, jsNeg_num, jsGtb_num, decide_eq_true_eq, List.map_map,
      List.length_map, zero_add, num.injEq, Function.comp]
    split_ifs with h0 h1 h2 h3
    · rfl
    · simp
    · exfalso
      simp only [jsNeg_num, jsGtb_num, decide_eq_true_eq] at h1
      exact h2 h1
    · exfalso
      simp only [jsNeg_num, jsGtb_num, decide_eq_true_eq] at h1
      exact h1 h3
    · rfl

/-! ### The AUC Integrator versus the spec formula -/

/-- Embedding of one real-valued sample. -/
noncomputable def mkSample (p : ℝ × ℝ) : Sample := ⟨num p.1, num p.2⟩

lemma toSamples_eq_map (l : List (ℝ × ℝ)) : toSamples l = l.map mkSample := rfl

lemma foldl_trap_map (ps : List ((ℝ × ℝ) × (ℝ × ℝ))) (a : ℝ) :
    (ps.map (Prod.map mkSample mkSample)).foldl
      (fun auc pq => jsAdd auc (jsMul (jsDiv (jsAdd pq.2.c pq.1.c) (num 2)) (jsSub pq.2.t pq.1.t)))
      (num a)
    = num (a + (ps.map (fun pq => (pq.2.2 + pq.1.2) / 2 * (pq.2.1 - pq.1.1))).sum) := by
  induction ps generalizing a with
  | nil => simp
  | cons p ps ih =>
    simp only [List.map_cons, List.foldl_cons, List.sum_cons, Prod.map, mkSample,
      jsAdd_num, jsSub_num]
    rw [jsDiv_num_ne _ (two_ne_zero), jsMul_num, jsAdd_num, ih]
    congr 1
    ring

lemma trapezoidalAUC_toSamples (l : List (ℝ × ℝ)) :
    trapezoidalAUC (toSamples l) = num (specTrapezoidSum l) := by
  unfold trapezoidalAUC specTrapezoidSum
  rw [toSamples_eq_map]
  have htail : (l.map mkSample).tail = l.tail.map mkSample := by
    cases l <;> simp
  rw [htail, List.zip_map, foldl_trap_map, zero_add]

lemma specTrapezoidSum_short (l : List (ℝ × ℝ)) (h : l.length ≤ 1) :
    specTrapezoidSum l = 0 := by
  match l with
  | [] => simp [specTrapezoidSum]
  | [p] => simp [specTrapezoidSum]
  | p :: q :: r => simp at h

/-! ### The peak scan -/

/-- Time component of the strict-greater-than peak scan over real samples:
the time of the first sample whose concentration strictly exceeds the
running maximum. -/
noncomputable def peakTimeAux : List (ℝ × ℝ) → ℝ → ℝ → ℝ
  | [], _, t0 => t0
  | p :: rest, m, t0 => if m < p.2 then peakTimeAux rest p.2 p.1 else peakTimeAux rest m t0

lemma computePeak_aux (l : List (ℝ × ℝ)) (m t0 : ℝ) :
    (l.map mkSample).foldl (fun acc p => if jsGtb p.c acc.1 then (p.c, p.t) else acc)
      (num m, num t0)
    = (num (l.foldl (fun a p => max a p.2) m), num (peakTimeAux l m t0)) := by
  induction l generalizing m t0 with
  | nil => simp [peakTimeAux]
  | cons p rest ih =>
    simp only [List.map_cons, List.foldl_cons, peakTimeAux, mkSample, jsGtb_num,
      decide_eq_true_eq]
    by_cases h : m < p.2
    · rw [if_pos h, if_pos h, ih, max_eq_right h.le]
    · rw [if_neg h, if_neg h, ih, max_eq_left (not_lt.mp h)]

lemma peakTimeAux_of_le (l : List (ℝ × ℝ)) (m t0 : ℝ) (h : ∀ p ∈ l, p.2 ≤ m) :
    peakTimeAux l m t0 = t0 := by
  induction l generalizing t0 with
  | nil => rfl
  | cons p rest ih =>
    rw [peakTimeAux, if_neg (not_lt.mpr (h p (List.mem_cons_self p rest)))]
    exact ih t0 (fun q hq => h q (List.mem_cons_of_mem p hq))

lemma foldl_max_of_le (l : List (ℝ × ℝ)) (m : ℝ) (h : ∀ p ∈ l, p.2 ≤ m) :
    l.foldl (fun a p => max a p.2) m = m := by
  induction l with
  | nil => rfl
  | cons p rest ih =>
    rw [List.foldl_cons, max_eq_left (h p (List.mem_cons_self p rest))]
    exact ih (fun q hq => h q (List.mem_cons_of_mem p hq))

lemma foldl_max_eq (l : List (ℝ × ℝ)) (m c : ℝ) (hm : m ≤ c)
    (hmem : ∃ p ∈ l, p.2 = c) (hall : ∀ p ∈ l, p.2 ≤ c) :
    l.foldl (fun a p => max a p.2) m = c := by
  induction l generalizing m with
  | nil => exact absurd hmem (by simp)
  | cons p rest ih =>
    rw [List.foldl_cons]
    by_cases hp : p.2 = c
    · rw [hp, max_eq_right hm]
      exact foldl_max_of_le rest c (fun q hq => hall q (List.mem_cons_of_mem p hq))
    · rcases hmem with ⟨q, hq, hqc⟩
      rcases List.mem_cons.mp hq with rfl | hq2
      · exact absurd hqc hp
      · exact ih (max m p.2) (max_le hm (hall p (List.mem_cons_self p rest)))
          ⟨q, hq2, hqc⟩ (fun r hr => hall r (List.mem_cons_of_mem p hr))

lemma peakTimeAux_first (l : List (ℝ × ℝ)) (m t0 : ℝ) (i : ℕ) (hi : i < l.length)
    (hm : m < (l.get ⟨i, hi⟩).2)
    (hall : ∀ j (hj : j < l.length), (l.get ⟨j, hj⟩).2 ≤ (l.get ⟨i, hi⟩).2)
    (hfirst : ∀ j (hj : j < i), (l.get ⟨j, Nat.lt_trans hj hi⟩).2 < (l.get ⟨i, hi⟩).2) :
    peakTimeAux l m t0 = (l.get ⟨i, hi⟩).1 := by
  induction l generalizing m t0 i with
  | nil => exact absurd hi (by simp)
  | cons p rest ih =>
    match i with
    | 0 =>
      simp only [List.get] at hm hall ⊢
      rw [peakTimeAux, if_pos hm]
      apply peakTimeAux_of_le
      intro q hq
      rcases List.mem_iff_get.mp hq with ⟨⟨j, hj⟩, rfl⟩
      exact hall (j + 1) (by simpa using Nat.succ_lt_succ hj)
    | (k + 1) =>
      have hk : k < rest.length := by simpa using hi
      have hhead : p.2 < (rest.get ⟨k, hk⟩).2 := by
        have := hfirst 0 (Nat.succ_pos k)
        simpa using this
      have hall2 : ∀ j (hj : j < rest.length),
          (rest.get ⟨j, hj⟩).2 ≤ (rest.get ⟨k, hk⟩).2 := by
        intro j hj
        have := hall (j + 1) (by simpa using Nat.succ_lt_succ hj)
        simpa using this
      have hfirst2 : ∀ j (hj : j < k),
          (rest.get ⟨j, Nat.lt_trans hj hk⟩).2 < (rest.get ⟨k, hk⟩).2 := by
        intro j hj
        have := hfirst (j + 1) (Nat.succ_lt_succ hj)
        simpa using this
      have hm2 : (rest.get ⟨k, hk⟩).2 = ((p :: rest).get ⟨k + 1, hi⟩).2 := by simp
      rw [peakTimeAux]
      by_cases hbr : m < p.2
      · rw [if_pos hbr]
        have := ih p.2 p.1 k hk (by simpa using hhead) hall2 hfirst2
        simpa using this
      · rw [if_neg hbr]
        have := ih m t0 k hk (by simpa using hm) hall2 hfirst2
        simpa using this

/-! ### Parser evaluation helpers -/

lemma jsParseFloat_some {l : List Char} {m : ℤ} {d : ℕ} {e : ℤ}
    (h : parseFloatParts l = some (m, d, e)) :
    jsParseFloat l = num (partsVal m d e) := by rw [jsParseFloat, h]

lemma jsParseFloat_none {l : List Char} (h : parseFloatParts l = none) :
    jsParseFloat l = nan := by rw [jsParseFloat, h]

lemma partsVal_nonneg_exp (m : ℤ) (d : ℕ) (e : ℤ) (he : 0 ≤ e) :
    partsVal m d e = (m : ℝ) / 10 ^ d * 10 ^ e.toNat := by
  rw [partsVal, if_pos he]

lemma parseSegment_one {seg tStr : List Char}
    (h : (splitOnChar ':' seg).map trimChars = [tStr]) :
    parseSegment seg = ⟨jsParseFloat tStr, nan⟩ := by rw [parseSegment, h]

lemma parseSegment_two {seg tStr cStr : List Char}
    (h : (splitOnChar ':' seg).map trimChars = [tStr, cStr]) :
    parseSegment seg = ⟨jsParseFloat tStr, jsParseFloat cStr⟩ := by rw [parseSegment, h]

lemma splitOnChar_ne_nil (sep : Char) (l : List Char) : splitOnChar sep l ≠ [] := by
  induction l with
  | nil => simp [splitOnChar]
  | cons ch rest ih =>
    rw [splitOnChar]
    match hrec : splitOnChar sep rest with
    | [] => exact absurd hrec ih
    | g :: gs =>
      by_cases hch : ch = sep
      · simp [hch]
      · simp [hch]

lemma parsePoints_length (csv : String) :
    (parsePoints csv).length = (splitOnChar ',' csv.toList).length := by
  rw [parsePoints, List.length_insertionSort, List.length_map]

lemma parsePoints_singleton {csv : String} {s : Sample}
    (h : (splitOnChar ',' csv.toList).map parseSegment = [s]) :
    parsePoints csv = [s] := by
  rw [parsePoints, h, List.insertionSort, List.insertionSort, List.orderedInsert]

lemma parsePoints_abc : parsePoints "abc" = [⟨nan, nan⟩] := by
  apply parsePoints_singleton
  have h1 : splitOnChar ',' "abc".toList = [['a', 'b', 'c']] := by decide
  rw [h1, List.map_cons, List.map_nil,
    parseSegment_one (show (splitOnChar ':' ['a', 'b', 'c']).map trimChars
      = [['a', 'b', 'c']] by decide),
    jsParseFloat_none (by decide)]

lemma parsePoints_empty : parsePoints "" = [⟨nan, nan⟩] := by
  apply parsePoints_singleton
  have h1 : splitOnChar ',' "".toList = [[]] := by decide
  rw [h1, List.map_cons, List.map_nil,
    parseSegment_one (show (splitOnChar ':' ([] : List Char)).map trimChars
      = [[]] by decide),
    jsParseFloat_none (by decide)]

lemma estimateTerminalK_nan_point : estimateTerminalK [(⟨nan, nan⟩ : Sample)] = none := by
  simp [estimateTerminalK, jsGtb, List.filter_cons]

/-! ### Sortedness of the parsed sequence on real times -/

/-- A sample whose time is an actual number (not NaN). -/
def realT (s : Sample) : Prop := ∃ x, s.t = num x

lemma sampleLe_total {a b : Sample} (ha : realT a) (hb : realT b) :
    sampleLe a b ∨ sampleLe b a := by
  obtain ⟨x, hx⟩ := ha
  obtain ⟨y, hy⟩ := hb
  simp only [sampleLe, hx, hy]
  exact le_total x y

lemma sampleLe_trans {a b c : Sample} (hab : sampleLe a b) (hbc : sampleLe b c) :
    sampleLe a c := by
  unfold sampleLe at *
  cases hat : a.t <;> cases hbt : b.t <;> cases hct : c.t <;>
    simp_all
  exact le_trans hab hbc

lemma sorted_orderedInsert (a : Sample) (l : List Sample) (ha : realT a)
    (hl : ∀ s ∈ l, realT s) (hs : List.Sorted sampleLe l) :
    List.Sorted sampleLe (List.orderedInsert sampleLe a l) := by
  induction l with
  | nil => simp
  | cons b t ih =>
    rw [List.orderedInsert]
    by_cases hab : sampleLe a b
    · rw [if_pos hab]
      rw [List.sorted_cons]
      refine ⟨?_, hs⟩
      intro s hsmem
      rcases List.mem_cons.mp hsmem with rfl | hmem
      · exact hab
      · exact sampleLe_trans hab ((List.sorted_cons.mp hs).1 s hmem)
    · rw [if_neg hab]
      have hba : sampleLe b a := by
        rcases sampleLe_total ha (hl b (List.mem_cons_self b t)) with h | h
        · exact absurd h hab
        · exact h
      rw [List.sorted_cons]
      constructor
      · intro s hsmem
        rcases (List.mem_orderedInsert sampleLe).mp hsmem with rfl | hmem
        · exact hba
        · exact (List.sorted_cons.mp hs).1 s hmem
      · exact ih (fun s hm => hl s (List.mem_cons_of_mem b hm)) (List.sorted_cons.mp hs).2

lemma sorted_insertionSort_real (l : List Sample) (hl : ∀ s ∈ l, realT s) :
    List.Sorted sampleLe (List.insertionSort sampleLe l) := by
  induction l with
  | nil => simp
  | cons a t ih =>
    rw [List.insertionSort]
    apply sorted_orderedInsert
    · exact hl a (List.mem_cons_self a t)
    · intro s hs
      exact hl s (List.mem_cons_of_mem a ((List.mem_insertionSort sampleLe).mp hs))
    · exact ih (fun s hm => hl s (List.mem_cons_of_mem a hm))

/-! ### Field equations for `handleCalculate` -/

lemma hc_points (inp : InputRecord) :
    (handleCalculate inp).points = parsePoints inp.pointsCsv := rfl

lemma hc_auc (inp : InputRecord) :
    (handleCalculate inp).auc = trapezoidalAUC (parsePoints inp.pointsCsv) := rfl

lemma hc_k_from_t12 (inp : InputRecord) :
    (handleCalculate inp).k_from_t12
      = if inp.t12 ≠ 0 then some (num (0.693 / inp.t12)) else none := rfl

lemma hc_k_from_cl_vd (inp : InputRecord) :
    (handleCalculate inp).k_from_cl_vd
      = if inp.Cl ≠ 0 ∧ inp.Vd ≠ 0 then some (num (inp.Cl / inp.Vd)) else none := rfl

lemma hc_k_est (inp : InputRecord) :
    (handleCalculate inp).k_est = estimateTerminalK (parsePoints inp.pointsCsv) := rfl

lemma hc_k (inp : InputRecord) :
    (handleCalculate inp).k
      = jsOrN (jsOrN (jsOrN (handleCalculate inp).k_est (handleCalculate inp).k_from_cl_vd)
          (handleCalculate inp).k_from_t12) none := rfl

lemma hc_t_half (inp : InputRecord) :
    (handleCalculate inp).t_half
      = match (handleCalculate inp).k with
        | some v => if v.truthy then some (jsDiv (num 0.693) v) else none
        | none => none := rfl

lemma hc_lastC (inp : InputRecord) :
    (handleCalculate inp).lastC = lastConc (parsePoints inp.pointsCsv) := rfl

lemma hc_aucInf (inp : InputRecord) :
    (handleCalculate inp).aucInf
      = match (handleCalculate inp).k with
        | some v => if v.truthy
            then some (jsAdd (handleCalculate inp).auc
              (jsDiv (handleCalculate inp).lastC v))
            else none
        | none => none := rfl

lemma hc_peak (inp : InputRecord) :
    ((handleCalculate inp).Cmax, (handleCalculate inp).Tmax)
      = computePeak (parsePoints inp.pointsCsv) := rfl

lemma hc_LD (inp : InputRecord) :
    (handleCalculate inp).LD
      = num ((inp.cssTarget * inp.Vd) / (if inp.F ≠ 0 then inp.F else 1)) := rfl

lemma hc_MD_rate (inp : InputRecord) :
    (handleCalculate inp).MD_rate
      = jsMul (num inp.cssTarget)
          (if inp.Cl ≠ 0 then num inp.Cl
           else
             match (handleCalculate inp).k with
             | some v => if v.truthy ∧ inp.Vd ≠ 0 then jsMul v (num inp.Vd) else num 0
             | none => num 0) := rfl

lemma hc_MD (inp : InputRecord) :
    (handleCalculate inp).MD
      = jsDiv (jsMul (handleCalculate inp).MD_rate
          (num (if inp.tau ≠ 0 then inp.tau else 1)))
          (num (if inp.F ≠ 0 then inp.F else 1)) := rfl

/-! ### Shape of the estimator and the selection chain -/

lemma estimateTerminalK_shape (pts : List Sample) :
    estimateTerminalK pts = none ∨
    ∃ r : ℝ, estimateTerminalK pts = some (num r) ∧ 0 < r := by
  simp only [estimateTerminalK]
  split_ifs with h1 h2 h3
  · exact Or.inl rfl
  · exact Or.inl rfl
  · right
    generalize jsNeg (jsDiv _ _) = k at h3 ⊢
    cases k with
    | num r =>
      refine ⟨r, rfl, ?_⟩
      rw [jsGtb_num, decide_eq_true_eq] at h3
      exact h3
    | nan =>
      rw [show jsGtb nan (num 0) = false from rfl] at h3
      exact absurd h3 (by simp)
  · exact Or.inl rfl

lemma k_selected_shape (inp : InputRecord) :
    (handleCalculate inp).k = none ∨
    ∃ r : ℝ, (handleCalculate inp).k = some (num r) ∧ r ≠ 0 := by
  rw [hc_k, hc_k_est, hc_k_from_cl_vd, hc_k_from_t12]
  by_cases hkest : jsTruthyN (estimateTerminalK (parsePoints inp.pointsCsv)) = true
  · simp only [jsOrN_truthy hkest]
    rcases estimateTerminalK_shape (parsePoints inp.pointsCsv) with h | ⟨r, hr, hrpos⟩
    · rw [h] at hkest
      simp at hkest
    · exact Or.inr ⟨r, hr, ne_of_gt hrpos⟩
  · have hA : jsTruthyN (estimateTerminalK (parsePoints inp.pointsCsv)) = false := by
      simpa using hkest
    rw [jsOrN_falsy hA]
    by_cases hcl : inp.Cl ≠ 0 ∧ inp.Vd ≠ 0
    · rw [if_pos hcl]
      have hdiv : inp.Cl / inp.Vd ≠ 0 := div_ne_zero hcl.1 hcl.2
      have htr : jsTruthyN (some (num (inp.Cl / inp.Vd))) = true := by simp [hdiv]
      simp only [jsOrN_truthy htr]
      exact Or.inr ⟨inp.Cl / inp.Vd, rfl, hdiv⟩
    · rw [if_neg hcl, jsOrN_none_left]
      by_cases ht12 : inp.t12 ≠ 0
      · rw [if_pos ht12]
        have hdiv : (0.693 : ℝ) / inp.t12 ≠ 0 :=
          div_ne_zero (by norm_num) ht12
        have htr : jsTruthyN (some (num ((0.693 : ℝ) / inp.t12))) = true := by simp [hdiv]
        simp only [jsOrN_truthy htr]
        exact Or.inr ⟨0.693 / inp.t12, rfl, hdiv⟩
      · rw [if_neg ht12, jsOrN_none_left]
        exact Or.inl rfl

/-! ### Concrete evaluations used as witnesses -/

lemma jsParseFloat_digit {l : List Char} {n : ℕ}
    (h : parseFloatParts l = some ((n : ℤ), 0, 0)) :
    jsParseFloat l = num (n : ℝ) := by
  rw [jsParseFloat_some h, partsVal]
  norm_num

lemma parseSegment_02 : parseSegment (['0', ':', '2'] : List Char) = ⟨num 0, num 2⟩ := by
  rw [parseSegment_two (show (splitOnChar ':' ['0', ':', '2']).map trimChars
      = [['0'], ['2']] by decide),
    jsParseFloat_digit (show parseFloatParts ['0'] = some (((0 : ℕ) : ℤ), 0, 0) by decide),
    jsParseFloat_digit (show parseFloatParts ['2'] = some (((2 : ℕ) : ℤ), 0, 0) by decide)]
  norm_num

lemma parseSegment_11 : parseSegment (['1', ':', '1'] : List Char) = ⟨num 1, num 1⟩ := by
  rw [parseSegment_two (show (splitOnChar ':' ['1', ':', '1']).map trimChars
      = [['1'], ['1']] by decide),
    jsParseFloat_digit (show parseFloatParts ['1'] = some (((1 : ℕ) : ℤ), 0, 0) by decide)]
  norm_num

lemma parsePoints_decreasing :
    parsePoints "0:2,1:1" = [⟨num 0, num 2⟩, ⟨num 1, num 1⟩] := by
  rw [parsePoints]
  have h1 : splitOnChar ',' "0:2,1:1".toList = [['0', ':', '2'], ['1', ':', '1']] := by
    decide
  rw [h1, List.map_cons, List.map_cons, List.map_nil, parseSegment_02, parseSegment_11]
  have hle : sampleLe ⟨num 0, num 2⟩ ⟨num 1, num 1⟩ := by
    show (0 : ℝ) ≤ 1
    norm_num
  rw [List.insertionSort, List.insertionSort, List.insertionSort, List.orderedInsert,
    List.orderedInsert, if_pos hle]

lemma specTerminalK_eval :
    specTerminalK [((0:ℝ), (2:ℝ)), ((1:ℝ), (1:ℝ))] = some (Real.log 2) := by
  simp only [specTerminalK, List.filter_cons, List.filter_nil, decide_eq_true_eq]
  norm_num [Real.log_one]
  have hL : (0:ℝ) < Real.log 2 := Real.log_pos (by norm_num)
  constructor
  · have he : (-(1 / 2 * (Real.log 2 - Real.log 2 / 2)) + -(1 / 2 * (Real.log 2 / 2)))
        / (1 / 2) = -Real.log 2 := by ring
    rw [he]
    linarith
  · ring

lemma estimateTerminalK_decreasing :
    estimateTerminalK (parsePoints "0:2,1:1") = some (num (Real.log 2)) := by
  rw [parsePoints_decreasing]
  have hts : ([⟨num 0, num 2⟩, ⟨num 1, num 1⟩] : List Sample)
      = toSamples [((0:ℝ), (2:ℝ)), ((1:ℝ), (1:ℝ))] := by
    simp [toSamples]
  rw [hts, estimateTerminalK_refines, specTerminalK_eval]
  rfl

/-! ### Selection-chain helper lemmas -/

lemma k_eq_k_est (inp : InputRecord)
    (h : (handleCalculate inp).k_est.isSome = true) :
    (handleCalculate inp).k = (handleCalculate inp).k_est := by
  have htr : jsTruthyN (handleCalculate inp).k_est = true := by
    rw [hc_k_est] at h ⊢
    rcases estimateTerminalK_shape (parsePoints inp.pointsCsv) with hn | ⟨r, hr, hrpos⟩
    · rw [hn] at h
      simp at h
    · rw [hr]
      simp [ne_of_gt hrpos]
  rw [hc_k]
  simp only [jsOrN_truthy htr]

lemma k_eq_cl_vd (inp : InputRecord)
    (h1 : (handleCalculate inp).k_est = none)
    (h2 : (handleCalculate inp).k_from_cl_vd.isSome = true) :
    (handleCalculate inp).k = (handleCalculate inp).k_from_cl_vd := by
  rw [hc_k, h1, jsOrN_none_left]
  rw [hc_k_from_cl_vd] at h2 ⊢
  by_cases hcl : inp.Cl ≠ 0 ∧ inp.Vd ≠ 0
  · rw [if_pos hcl]
    have htr : jsTruthyN (some (num (inp.Cl / inp.Vd))) = true := by
      simp [div_ne_zero hcl.1 hcl.2]
    simp only [jsOrN_truthy htr]
  · rw [if_neg hcl] at h2
    simp at h2

lemma k_eq_t12 (inp : InputRecord)
    (h1 : (handleCalculate inp).k_est = none)
    (h2 : (handleCalculate inp).k_from_cl_vd = none)
    (h3 : (handleCalculate inp).k_from_t12.isSome = true) :
    (handleCalculate inp).k = (handleCalculate inp).k_from_t12 := by
  rw [hc_k, h1, h2, jsOrN_none_left, jsOrN_none_left]
  rw [hc_k_from_t12] at h3 ⊢
  by_cases ht : inp.t12 ≠ 0
  · rw [if_pos ht]
    have htr : jsTruthyN (some (num ((0.693 : ℝ) / inp.t12))) = true := by
      simp [div_ne_zero (show (0.693 : ℝ) ≠ 0 by norm_num) ht]
    simp only [jsOrN_truthy htr]
  · rw [if_neg ht] at h3
    simp at h3

lemma k_all_none (inp : InputRecord)
    (h1 : (handleCalculate inp).k_est = none)
    (h2 : (handleCalculate inp).k_from_cl_vd = none)
    (h3 : (handleCalculate inp).k_from_t12 = none) :
    (handleCalculate inp).k = none := by
  rw [hc_k, h1, h2, h3, jsOrN_none_left, jsOrN_none_left, jsOrN_none_left]

/-! ### Concrete input records -/

/-- The form's default inputs (src/App.jsx lines 13-23). -/
noncomputable def recDefault : InputRecord where
  dose := 500
  route := Route.oral
  F := 0.6
  Vd := 40
  Cl := 4
  t12 := 8
  ka := 1.2
  tau := 12
  cssTarget := 2
  pointsCsv := "0:0,1:2.1,2:3.5,4:2.2,6:1.1,8:0.6"

/-- Default inputs with a two-point strictly decreasing curve. -/
noncomputable def recSlope : InputRecord := { recDefault with pointsCsv := "0:2,1:1" }

/-- Default inputs with an empty CSV field. -/
noncomputable def recEmptyCsv : InputRecord := { recDefault with pointsCsv := "" }

/-- Inputs on which no rate candidate is defined. -/
noncomputable def recNone : InputRecord :=
  { recDefault with Cl := 0, Vd := 0, t12 := 0, pointsCsv := "" }

/-- Zero clearance, decreasing curve: exercises the `k·Vd` maintenance
fallback. -/
noncomputable def recFallback : InputRecord :=
  { recDefault with Cl := 0, pointsCsv := "0:2,1:1" }

/-- Zero clearance and volume: exercises the zero maintenance fallback. -/
noncomputable def recFallbackZero : InputRecord :=
  { recDefault with Cl := 0, Vd := 0, pointsCsv := "" }

/-- Default inputs with different dose, route and ka. -/
noncomputable def recVaried : InputRecord :=
  { recDefault with dose := 1, ka := 99, route := Route.iv }

lemma k_est_emptyCsv : (handleCalculate recEmptyCsv).k_est = none := by
  rw [hc_k_est]
  show estimateTerminalK (parsePoints "") = none
  rw [parsePoints_empty]
  exact estimateTerminalK_nan_point

lemma k_emptyCsv : (handleCalculate recEmptyCsv).k = some (num (1 / 10)) := by
  have h2 : (handleCalculate recEmptyCsv).k_from_cl_vd = some (num (1 / 10)) := by
    rw [hc_k_from_cl_vd, if_pos]
    · show some (num ((4 : ℝ) / 40)) = some (num (1 / 10))
      norm_num
    · constructor
      · show (4 : ℝ) ≠ 0
        norm_num
      · show (40 : ℝ) ≠ 0
        norm_num
  rw [k_eq_cl_vd recEmptyCsv k_est_emptyCsv (by rw [h2]; rfl), h2]

lemma k_recNone : (handleCalculate recNone).k = none := by
  apply k_all_none
  · rw [hc_k_est]
    show estimateTerminalK (parsePoints "") = none
    rw [parsePoints_empty]
    exact estimateTerminalK_nan_point
  · rw [hc_k_from_cl_vd, if_neg]
    intro h
    exact absurd (show recNone.Cl = 0 from rfl) h.1
  · rw [hc_k_from_t12, if_neg]
    intro h
    exact absurd (show recNone.t12 = 0 from rfl) h

/-! ### Claim theorems -/

/-- C1: the Point Parser on malformed input.  The claim says `parsePoints`
returns an empty sequence for malformed input such as `"abc"`.  In fact JS
`parseFloat` does not throw on a malformed string — it returns NaN — so the
`catch` that would return `[]` is dead: `parsePoints "abc"` is the singleton
NaN sample, and no input string whatsoever produces the empty sequence. -/
theorem c1_malformed_parse :
    parsePoints "abc" = [⟨nan, nan⟩]
    ∧ ∀ csv : String, parsePoints csv ≠ [] := by
  refine ⟨parsePoints_abc, ?_⟩
  intro csv h
  have hlen := parsePoints_length csv
  rw [h] at hlen
  exact splitOnChar_ne_nil ',' csv.toList (List.length_eq_zero.mp hlen.symm)

/-- C2: the selected elimination rate is the first defined candidate in the
priority order terminal slope, then Cl/Vd, then half-life; when none is
defined the selected rate is null.  (A defined candidate is always truthy:
the terminal-slope estimate is strictly positive, and the other two are
quotients of nonzero reals, so JS `||` selection coincides with
first-defined-wins.) -/
theorem c2_rate_selection_priority (inp : InputRecord) :
    ((handleCalculate inp).k_est.isSome = true →
      (handleCalculate inp).k = (handleCalculate inp).k_est)
    ∧ ((handleCalculate inp).k_est = none →
        (handleCalculate inp).k_from_cl_vd.isSome = true →
        (handleCalculate inp).k = (handleCalculate inp).k_from_cl_vd)
    ∧ ((handleCalculate inp).k_est = none →
        (handleCalculate inp).k_from_cl_vd = none →
        (handleCalculate inp).k_from_t12.isSome = true →
        (handleCalculate inp).k = (handleCalculate inp).k_from_t12)
    ∧ ((handleCalculate inp).k_est = none →
        (handleCalculate inp).k_from_cl_vd = none →
        (handleCalculate inp).k_from_t12 = none →
        (handleCalculate inp).k = none) :=
  ⟨k_eq_k_est inp, k_eq_cl_vd inp, k_eq_t12 inp, k_all_none inp⟩

/-- Witness for C2 at concrete inputs: with the decreasing curve `0:2,1:1`
all three candidates are defined and the selected rate is the terminal-slope
estimate `ln 2`; with zero Cl, Vd and t½ and an empty curve no candidate is
defined and the selected rate is null. -/
theorem c2_rate_selection_priority_witness :
    (handleCalculate recSlope).k_est = some (num (Real.log 2))
    ∧ (handleCalculate recSlope).k = some (num (Real.log 2))
    ∧ (handleCalculate recNone).k = none := by
  have hest : (handleCalculate recSlope).k_est = some (num (Real.log 2)) := by
    rw [hc_k_est]
    show estimateTerminalK (parsePoints "0:2,1:1") = _
    exact estimateTerminalK_decreasing
  refine ⟨hest, ?_, ?_⟩
  · have h := (c2_rate_selection_priority recSlope).1 (by rw [hest]; rfl)
    rw [h, hest]
  · have h1 : (handleCalculate recNone).k_est = none := by
      rw [hc_k_est]
      show estimateTerminalK (parsePoints "") = none
      rw [parsePoints_empty]
      exact estimateTerminalK_nan_point
    have h2 : (handleCalculate recNone).k_from_cl_vd = none := by
      rw [hc_k_from_cl_vd, if_neg]
      intro h
      exact absurd (show recNone.Cl = 0 from rfl) h.1
    have h3 : (handleCalculate recNone).k_from_t12 = none := by
      rw [hc_k_from_t12, if_neg]
      intro h
      exact absurd (show recNone.t12 = 0 from rfl) h
    exact (c2_rate_selection_priority recNone).2.2.2 h1 h2 h3

/-- C3: the terminal-slope candidate computes, over real-valued sample
sequences, exactly the spec's algorithm: filter to positive concentrations,
undefined below two samples, the last up to four, the OLS slope of
ln(concentration) against time over that window, k the negative of the
slope, undefined when the time variance is zero or k is not positive. -/
theorem c3_terminal_slope_spec (l : List (ℝ × ℝ)) :
    estimateTerminalK (toSamples l) = (specTerminalK l).map num :=
  estimateTerminalK_refines l

/-- C4: the AUC Integrator computes the linear-trapezoid sum over
consecutive pairs as given (without re-sorting its input, so reversed pairs
contribute negative areas), and returns 0 for zero or one sample. -/
theorem c4_trapezoidal_auc (l : List (ℝ × ℝ)) :
    trapezoidalAUC (toSamples l) = num (specTrapezoidSum l)
    ∧ (l.length ≤ 1 → trapezoidalAUC (toSamples l) = num 0) := by
  refine ⟨trapezoidalAUC_toSamples l, fun h => ?_⟩
  rw [trapezoidalAUC_toSamples l, specTrapezoidSum_short l h]

/-- Witness for C4: the spec's worked example
`[(0,0),(1,2.1),(2,3.5)] ↦ 3.85`, and a one-sample sequence giving 0. -/
theorem c4_trapezoidal_auc_witness :
    trapezoidalAUC (toSamples [((0 : ℝ), (0 : ℝ)), (1, 2.1), (2, 3.5)]) = num 3.85
    ∧ trapezoidalAUC (toSamples [((5 : ℝ), (2 : ℝ))]) = num 0 := by
  constructor
  · rw [(c4_trapezoidal_auc _).1]
    norm_num [specTrapezoidSum]
  · exact (c4_trapezoidal_auc _).2 (by norm_num)

/-- C10: the computation never reads the dose amount, the route or ka: two
input records agreeing on F, Vd, Cl, t½, tau, Css target and the CSV text
produce identical result records. -/
theorem c10_unused_inputs (r1 r2 : InputRecord)
    (hF : r1.F = r2.F) (hVd : r1.Vd = r2.Vd) (hCl : r1.Cl = r2.Cl)
    (ht : r1.t12 = r2.t12) (hTau : r1.tau = r2.tau)
    (hCss : r1.cssTarget = r2.cssTarget) (hCsv : r1.pointsCsv = r2.pointsCsv) :
    handleCalculate r1 = handleCalculate r2 := by
  cases r1
  cases r2
  simp only at hF hVd hCl ht hTau hCss hCsv
  subst hF hVd hCl ht hTau hCss hCsv
  rfl

/-- Witness for C10: the default inputs and the same inputs with different
dose, route and ka give identical results. -/
theorem c10_unused_inputs_witness :
    handleCalculate recDefault = handleCalculate recVaried :=
  c10_unused_inputs recDefault recVaried rfl rfl rfl rfl rfl rfl rfl

/-- Counterexample for C6: the source computes the derived half-life with
the literal constant `0.693`, not with `ln 2`.  On default parameters with
an empty CSV the selected rate is Cl/Vd = 0.1 and `t_half` is 6.93, which is
not `ln 2 / 0.1 = 6.9314…`. -/
theorem c6_counterexample :
    (handleCalculate recEmptyCsv).k = some (num (1 / 10))
    ∧ (handleCalculate recEmptyCsv).t_half = some (num 6.93)
    ∧ (handleCalculate recEmptyCsv).t_half ≠ some (num (Real.log 2 / (1 / 10))) := by
  have hth : (handleCalculate recEmptyCsv).t_half = some (num 6.93) := by
    simp only [hc_t_half, k_emptyCsv]
    have htr : (num ((1 : ℝ) / 10)).truthy = true := by norm_num
    rw [if_pos htr, jsDiv_num_ne _ (by norm_num : (1 : ℝ) / 10 ≠ 0)]
    norm_num
  refine ⟨k_emptyCsv, hth, ?_⟩
  rw [hth]
  intro h
  have h2 : (6.93 : ℝ) = Real.log 2 / (1 / 10) := by
    have := Option.some.inj h
    simpa using this
  have hlog := Real.log_two_gt_d9
  rw [div_div_eq_mul_div, div_one] at h2
  linarith

/-- C6 (amended): when the selected rate k is defined, the derived half-life
is `0.693 / k` (the source's literal constant approximating ln 2) and the
extrapolated AUC is the finite AUC plus `lastC / k`; the last concentration
is 0 for an empty sample sequence; when k is undefined both quantities are
undefined. -/
theorem c6_derived_quantities (inp : InputRecord) (r : ℝ) :
    ((handleCalculate inp).k = some (num r) →
      (handleCalculate inp).t_half = some (num (0.693 / r))
      ∧ (handleCalculate inp).aucInf
          = some (jsAdd (handleCalculate inp).auc
              (jsDiv (handleCalculate inp).lastC (num r))))
    ∧ ((handleCalculate inp).k = none →
      (handleCalculate inp).t_half = none ∧ (handleCalculate inp).aucInf = none)
    ∧ lastConc ([] : List Sample) = num 0 := by
  refine ⟨?_, ?_, rfl⟩
  · intro hk
    have hr : r ≠ 0 := by
      rcases k_selected_shape inp with hn | ⟨r2, hr2, hr2ne⟩
      · rw [hn] at hk
        exact absurd hk (by simp)
      · rw [hr2] at hk
        have : num r2 = num r := Option.some.inj hk
        rw [num.injEq] at this
        rw [← this]
        exact hr2ne
    have htr : (num r).truthy = true := by simp [hr]
    constructor
    · simp only [hc_t_half, hk]
      rw [if_pos htr, jsDiv_num_ne _ hr]
    · simp only [hc_aucInf, hk]
      rw [if_pos htr]
  · intro hk
    constructor
    · simp only [hc_t_half, hk]
    · simp only [hc_aucInf, hk]

/-- Witness for C6 at concrete inputs: with k = 0.1 the half-life is 6.93;
with no candidate defined both derived quantities are null. -/
theorem c6_derived_quantities_witness :
    (handleCalculate recEmptyCsv).t_half = some (num (0.693 / (1 / 10)))
    ∧ (handleCalculate recNone).t_half = none
    ∧ (handleCalculate recNone).aucInf = none := by
  refine ⟨((c6_derived_quantities recEmptyCsv (1 / 10)).1 k_emptyCsv).1, ?_, ?_⟩
  · exact ((c6_derived_quantities recNone 0).2.1 k_recNone).1
  · exact ((c6_derived_quantities recNone 0).2.1 k_recNone).2

/-- C9: the half-life candidate is `0.693 / t½` — the literal constant, not
full-precision `ln 2` — defined exactly when t½ is nonzero, and the
clearance/volume candidate is `Cl / Vd`, defined exactly when both are
nonzero. -/
theorem c9_candidate_rates (inp : InputRecord) :
    ((handleCalculate inp).k_from_t12
        = if inp.t12 = 0 then none else some (num (0.693 / inp.t12)))
    ∧ (inp.t12 ≠ 0 → (0.693 : ℝ) / inp.t12 ≠ Real.log 2 / inp.t12)
    ∧ ((handleCalculate inp).k_from_cl_vd
        = if inp.Cl = 0 ∨ inp.Vd = 0 then none
          else some (num (inp.Cl / inp.Vd))) := by
  refine ⟨?_, ?_, ?_⟩
  · rw [hc_k_from_t12]
    by_cases ht : inp.t12 = 0 <;> simp [ht]
  · intro ht heq
    rw [div_eq_div_iff ht ht] at heq
    have h2 : (0.693 : ℝ) = Real.log 2 := mul_right_cancel₀ ht heq
    have hlog := Real.log_two_gt_d9
    linarith
  · rw [hc_k_from_cl_vd]
    by_cases hCl : inp.Cl = 0 <;> by_cases hVd : inp.Vd = 0 <;> simp [hCl, hVd]

/-- Witness for C9 at the default inputs: t½ = 8 gives 0.086625 (and not the
ln-2-precise value), Cl = 4 and Vd = 40 give 0.1. -/
theorem c9_candidate_rates_witness :
    (handleCalculate recDefault).k_from_t12 = some (num 0.086625)
    ∧ (0.693 : ℝ) / 8 ≠ Real.log 2 / 8
    ∧ (handleCalculate recDefault).k_from_cl_vd = some (num 0.1) := by
  obtain ⟨h1, h2, h3⟩ := c9_candidate_rates recDefault
  refine ⟨?_, ?_, ?_⟩
  · rw [h1]
    norm_num [recDefault]
  · exact h2 (by norm_num [recDefault])
  · rw [h3]
    norm_num [recDefault]

/-- C8: the peak scan starts from (0, 0) and updates on strict
greater-than, so the empty sequence yields peak 0 at time 0, and for tied
maxima the reported time is that of the first sample attaining the maximum
(earlier samples being strictly smaller). -/
theorem c8_peak_first_occurrence (l : List (ℝ × ℝ)) :
    computePeak (toSamples []) = (num 0, num 0)
    ∧ ∀ (i : ℕ) (hi : i < l.length),
        0 < (l.get ⟨i, hi⟩).2 →
        (∀ (j : ℕ) (hj : j < l.length), (l.get ⟨j, hj⟩).2 ≤ (l.get ⟨i, hi⟩).2) →
        (∀ (j : ℕ) (hj : j < i),
          (l.get ⟨j, Nat.lt_trans hj hi⟩).2 < (l.get ⟨i, hi⟩).2) →
        computePeak (toSamples l)
          = (num (l.get ⟨i, hi⟩).2, num (l.get ⟨i, hi⟩).1) := by
  refine ⟨rfl, ?_⟩
  intro i hi hpos hall hfirst
  have hres : computePeak (toSamples l)
      = (num (l.foldl (fun a p => max a p.2) 0), num (peakTimeAux l 0 0)) := by
    rw [computePeak, toSamples_eq_map]
    exact computePeak_aux l 0 0
  rw [hres]
  have hmax : l.foldl (fun a p => max a p.2) 0 = (l.get ⟨i, hi⟩).2 := by
    apply foldl_max_eq l 0 _ hpos.le
    · exact ⟨l.get ⟨i, hi⟩, List.get_mem l i hi, rfl⟩
    · intro p hp
      rcases List.mem_iff_get.mp hp with ⟨⟨j, hj⟩, rfl⟩
      exact hall j hj
  have htime : peakTimeAux l 0 0 = (l.get ⟨i, hi⟩).1 :=
    peakTimeAux_first l 0 0 i hi hpos hall hfirst
  rw [hmax, htime]

/-- Witness for C8: the sequence `[(1,3),(2,3),(0,1)]` has a tied maximum 3
at times 1 and 2; the scan reports the first, `(Cmax, Tmax) = (3, 1)`. -/
theorem c8_peak_first_occurrence_witness :
    computePeak (toSamples [((1 : ℝ), (3 : ℝ)), (2, 3), (0, 1)]) = (num 3, num 1) := by
  have h := (c8_peak_first_occurrence [((1 : ℝ), (3 : ℝ)), (2, 3), (0, 1)]).2 0
    (by norm_num) (by norm_num)
    (by
      intro j hj
      simp only [List.length_cons, List.length_nil] at hj
      match j with
      | 0 => simp
      | 1 => simp [List.get]
      | 2 => norm_num [List.get]
      | n + 3 => omega)
    (by
      intro j hj
      exact absurd hj (Nat.not_lt_zero j))
  simpa using h

/-- C7: on well-formed input (every parsed segment has a real, non-NaN
time), the Point Parser yields exactly one sample per comma-separated
segment — a permutation of the segment-wise parses, so duplicate timestamps
are all retained — sorted ascending by time.  Whitespace around the two
halves of each segment is trimmed inside `parseSegment` before numeric
parsing. -/
theorem c7_wellformed_parse (csv : String)
    (h : ∀ s ∈ (splitOnChar ',' csv.toList).map parseSegment, realT s) :
    List.Perm (parsePoints csv) ((splitOnChar ',' csv.toList).map parseSegment)
    ∧ (parsePoints csv).length = (splitOnChar ',' csv.toList).length
    ∧ List.Sorted sampleLe (parsePoints csv) := by
  refine ⟨?_, parsePoints_length csv, ?_⟩
  · rw [parsePoints]
    exact List.perm_insertionSort sampleLe _
  · rw [parsePoints]
    exact sorted_insertionSort_real _ h

/-- Witness for C7 on `"1 : 2, 1:5,0:3"`: three segments (with embedded
whitespace, trimmed away, and a duplicate timestamp 1) give three samples,
kept as a permutation and sorted ascending by time. -/
theorem c7_wellformed_parse_witness :
    List.Perm (parsePoints "1 : 2, 1:5,0:3")
      [⟨num 1, num 2⟩, ⟨num 1, num 5⟩, ⟨num 0, num 3⟩]
    ∧ (parsePoints "1 : 2, 1:5,0:3").length = 3
    ∧ List.Sorted sampleLe (parsePoints "1 : 2, 1:5,0:3") := by
  have hsplit : splitOnChar ',' "1 : 2, 1:5,0:3".toList
      = [['1', ' ', ':', ' ', '2'], [' ', '1', ':', '5'], ['0', ':', '3']] := by
    decide
  have hmap : (splitOnChar ',' "1 : 2, 1:5,0:3".toList).map parseSegment
      = [⟨num 1, num 2⟩, ⟨num 1, num 5⟩, ⟨num 0, num 3⟩] := by
    rw [hsplit, List.map_cons, List.map_cons, List.map_cons, List.map_nil,
      parseSegment_two (show (splitOnChar ':' ['1', ' ', ':', ' ', '2']).map trimChars
        = [['1'], ['2']] by decide),
      parseSegment_two (show (splitOnChar ':' [' ', '1', ':', '5']).map trimChars
        = [['1'], ['5']] by decide),
      parseSegment_two (show (splitOnChar ':' ['0', ':', '3']).map trimChars
        = [['0'], ['3']] by decide),
      jsParseFloat_digit (show parseFloatParts ['0'] = some (((0 : ℕ) : ℤ), 0, 0) by decide),
      jsParseFloat_digit (show parseFloatParts ['1'] = some (((1 : ℕ) : ℤ), 0, 0) by decide),
      jsParseFloat_digit (show parseFloatParts ['2'] = some (((2 : ℕ) : ℤ), 0, 0) by decide),
      jsParseFloat_digit (show parseFloatParts ['3'] = some (((3 : ℕ) : ℤ), 0, 0) by decide),
      jsParseFloat_digit (show parseFloatParts ['5'] = some (((5 : ℕ) : ℤ), 0, 0) by decide)]
    norm_num
  obtain ⟨hperm, hlen, hsort⟩ := c7_wellformed_parse "1 : 2, 1:5,0:3"
    (by
      rw [hmap]
      intro s hs
      simp only [List.mem_cons, List.not_mem_nil, or_false] at hs
      rcases hs with rfl | rfl | rfl
      · exact ⟨1, rfl⟩
      · exact ⟨1, rfl⟩
      · exact ⟨0, rfl⟩)
  rw [hmap] at hperm
  rw [hsplit] at hlen
  exact ⟨hperm, by simpa using hlen, hsort⟩

/-- C5: the Dose Calculator outputs.  Loading dose is Css·Vd/F with F
replaced by 1 when zero; the maintenance dose rate is Css·Cl when Cl is
nonzero, otherwise Css·k·Vd when the selected k is defined and Vd nonzero,
otherwise 0; the maintenance dose per interval is rate·tau/F with tau and F
each replaced by 1 when zero.  Every division's denominator is guarded, so
each output is a real number (never NaN). -/
theorem c5_dose_outputs (inp : InputRecord) :
    (handleCalculate inp).LD
      = num (inp.cssTarget * inp.Vd / (if inp.F = 0 then 1 else inp.F))
    ∧ (inp.Cl ≠ 0 → (handleCalculate inp).MD_rate = num (inp.cssTarget * inp.Cl))
    ∧ (inp.Cl = 0 → ∀ r : ℝ, (handleCalculate inp).k = some (num r) → inp.Vd ≠ 0 →
        (handleCalculate inp).MD_rate = num (inp.cssTarget * (r * inp.Vd)))
    ∧ (inp.Cl = 0 → ((handleCalculate inp).k = none ∨ inp.Vd = 0) →
        (handleCalculate inp).MD_rate = num 0)
    ∧ (∃ m : ℝ, (handleCalculate inp).MD_rate = num m
        ∧ (handleCalculate inp).MD
          = num (m * (if inp.tau = 0 then 1 else inp.tau)
              / (if inp.F = 0 then 1 else inp.F))) := by
  refine ⟨?_, ?_, ?_, ?_, ?_⟩
  · rw [hc_LD]
    by_cases hF : inp.F = 0 <;> simp [hF]
  · intro hCl
    rw [hc_MD_rate, if_pos hCl]
    rfl
  · intro hCl r hk hVd
    simp only [hc_MD_rate, if_neg (not_not_intro hCl), hk]
    by_cases hr : r = 0
    · subst hr
      rw [if_neg]
      · simp
      · intro hcond
        have := hcond.1
        simp [truthy] at this
    · rw [if_pos ⟨by simp [hr], hVd⟩]
      rfl
  · intro hCl hor
    simp only [hc_MD_rate, if_neg (not_not_intro hCl)]
    rcases hor with hk | hVd
    · simp only [hk]
      simp
    · rcases k_selected_shape inp with hk | ⟨r, hk, _⟩
      · simp only [hk]
        simp
      · simp only [hk]
        rw [if_neg (fun hcond => hcond.2 hVd)]
        simp
  · have hm : ∃ m : ℝ, (handleCalculate inp).MD_rate = num m := by
      rw [hc_MD_rate]
      by_cases hCl : inp.Cl ≠ 0
      · rw [if_pos hCl]
        exact ⟨inp.cssTarget * inp.Cl, rfl⟩
      · rw [if_neg hCl]
        rcases k_selected_shape inp with hk | ⟨r, hk, _⟩
        · refine ⟨inp.cssTarget * 0, ?_⟩
          simp only [hk]
          rfl
        · by_cases hcond : ((num r).truthy = true) ∧ inp.Vd ≠ 0
          · refine ⟨inp.cssTarget * (r * inp.Vd), ?_⟩
            simp only [hk]
            rw [if_pos hcond]
            rfl
          · refine ⟨inp.cssTarget * 0, ?_⟩
            simp only [hk]
            rw [if_neg hcond]
            rfl
    obtain ⟨m, hmr⟩ := hm
    refine ⟨m, hmr, ?_⟩
    rw [hc_MD, hmr, jsMul_num]
    have hF1 : (if inp.F ≠ 0 then inp.F else 1) ≠ 0 := by
      by_cases hF : inp.F = 0
      · rw [if_neg (not_not_intro hF)]
        norm_num
      · rw [if_pos hF]
        exact hF
    rw [jsDiv_num_ne _ hF1]
    congr 1
    by_cases hT : inp.tau = 0 <;> by_cases hF : inp.F = 0 <;> simp [hT, hF]

/-- Witness for C5: on the default inputs LD = 2·40/0.6 = 400/3,
MD rate = 2·4 = 8, MD = 8·12/0.6 = 160; with zero clearance and the
decreasing curve the rate falls back to Css·k·Vd = 2·(ln 2·40); with zero
clearance and volume it falls back to 0. -/
theorem c5_dose_outputs_witness :
    (handleCalculate recDefault).LD = num (400 / 3)
    ∧ (handleCalculate recDefault).MD_rate = num 8
    ∧ (handleCalculate recDefault).MD = num 160
    ∧ (handleCalculate recFallback).MD_rate = num (2 * (Real.log 2 * 40))
    ∧ (handleCalculate recFallbackZero).MD_rate = num 0 := by
  have hMDr := (c5_dose_outputs recDefault).2.1
    (show recDefault.Cl ≠ 0 by norm_num [recDefault])
  refine ⟨?_, ?_, ?_, ?_, ?_⟩
  · rw [(c5_dose_outputs recDefault).1]
    norm_num [recDefault]
  · rw [hMDr]
    norm_num [recDefault]
  · obtain ⟨m, hm, hMD⟩ := (c5_dose_outputs recDefault).2.2.2.2
    have hm8 : m = 8 := by
      rw [hm] at hMDr
      simp only [num.injEq] at hMDr
      rw [hMDr]
      norm_num [recDefault]
    rw [hMD, hm8]
    norm_num [recDefault]
  · have hest : (handleCalculate recFallback).k_est = some (num (Real.log 2)) := by
      rw [hc_k_est]
      show estimateTerminalK (parsePoints "0:2,1:1") = _
      exact estimateTerminalK_decreasing
    have hk : (handleCalculate recFallback).k = some (num (Real.log 2)) := by
      rw [k_eq_k_est recFallback (by rw [hest]; rfl), hest]
    have h := (c5_dose_outputs recFallback).2.2.1
      (show recFallback.Cl = 0 from rfl) (Real.log 2) hk
      (show recFallback.Vd ≠ 0 by norm_num [recFallback, recDefault])
    rw [h]
    norm_num [recFallback, recDefault]
  · exact (c5_dose_outputs recFallbackZero).2.2.2.1
      (show recFallbackZero.Cl = 0 from rfl)
      (Or.inr (show recFallbackZero.Vd = 0 from rfl))
